import Mathlib

/-!
Process: one child process and its three pipes.

Shallow embedding of the class `Process` of `src/Process.hpp` and `src/Process.cpp`,
and of the two member functions (`check`, `start`) in which the second copy of the
implementation, `src/src/Process.cpp`, differs from the first.

* The object is a record `Process`; every member function is a function on that record.
* A member function that talks to the operating system returns, next to the new record,
  the list of system calls it issued, in program order (`Call`).
* What the operating system answers is an input of the function (`StartEnv`, `CheckEnv`).
  No assumption is made on those answers unless a theorem states it.
* `int` and `pid_t` are modelled by `Int`; the code performs no arithmetic on them apart
  from the array index `i` of `start`, a `Nat` here.
* A `char*` is modelled by the C string it leads to: the pointers `&arg[0]` and
  `path.c_str()` of a `std::string` give its characters before the first NUL (`cstr`).
-/

/-! ## Constants of the system headers (Linux values) -/

namespace Process.Sys

/-- The `SIGKILL` signal number of `<signal.h>`. -/
def SIGKILL : Int := 9
/-- The `WNOHANG` option of `<sys/wait.h>`. -/
def WNOHANG : Int := 1
/-- The `EPERM` value of `<errno.h>`. -/
def EPERM : Int := 1
/-- The `ESRCH` value of `<errno.h>`. -/
def ESRCH : Int := 3
/-- The `EINTR` value of `<errno.h>`. -/
def EINTR : Int := 4
/-- The `STDIN_FILENO` descriptor of `<unistd.h>`. -/
def STDIN_FILENO : Int := 0
/-- The `STDOUT_FILENO` descriptor of `<unistd.h>`. -/
def STDOUT_FILENO : Int := 1
/-- The `STDERR_FILENO` descriptor of `<unistd.h>`. -/
def STDERR_FILENO : Int := 2

end Process.Sys

/-! ## Data model -/

/-- A `char*` as `execve` sees it: `none` is `NULL`, and `some c` points to the
NUL-terminated character sequence `c`, the characters that a reader of the pointer finds
before the first NUL. -/
abbrev Ptr := Option String

/-- One system call, with its arguments. -/
inductive Call
  /-- The call `pipe(fds)`; `r` and `w` are the contents of `fds[0]`, `fds[1]` afterwards. -/
  | pipe (r w : Int)
  /-- The call `fork()`. -/
  | fork
  /-- The call `close(fd)`. -/
  | close (fd : Int)
  /-- The call `dup2(oldfd, newfd)`. -/
  | dup2 (oldfd newfd : Int)
  /-- The call `setsid()`. -/
  | setsid
  /-- The call `execve(path, argv, envp)`: `path` is the C string the first pointer leads
  to, the two arrays are given cell by cell. -/
  | execve (path : String) (argv envp : List Ptr)
  /-- The call `_exit(status)`. -/
  | _exit (status : Int)
  /-- The call `kill(pid, sig)`. -/
  | kill (pid sig : Int)
  /-- The call `waitpid(pid, NULL, options)`. -/
  | waitpid (pid options : Int)
deriving DecidableEq, Repr

/-- The data members of `class Process` (`src/Process.hpp` lines 20-30), with their default
member initialisers. The member `in` is spelt `in_`. -/
structure Process where
  err : Int := -1
  in_ : Int := -1
  out : Int := -1
  pid : Int := -1
  path : String := ""
  argv : List String := []
  envp : List String := []
deriving DecidableEq, Repr

namespace Process

/-- Getter `getErr`. -/
def getErr (p : Process) : Int := p.err
/-- Getter `getIn`. -/
def getIn (p : Process) : Int := p.in_
/-- Getter `getOut`. -/
def getOut (p : Process) : Int := p.out
/-- Getter `getPID`. -/
def getPID (p : Process) : Int := p.pid

/-! ## Argument and environment mutators (`src/Process.cpp` lines 30-55) -/

/-- Member `addArg`: `argv.push_back(arg)`. -/
def addArg (p : Process) (arg : String) : Process :=
  { p with argv := p.argv ++ [arg] }

/-- Member `addArgs`: the range-for loop calling `addArg` on every entry. -/
def addArgs (p : Process) (args : List String) : Process :=
  args.foldl addArg p

/-- Member `addEnv`: `envp.push_back(env)`. -/
def addEnv (p : Process) (env : String) : Process :=
  { p with envp := p.envp ++ [env] }

/-- Member `addEnvs`: the range-for loop calling `addEnv` on every entry. -/
def addEnvs (p : Process) (envs : List String) : Process :=
  envs.foldl addEnv p

/-- Member `clearArgs`: `argv.resize(0)`. -/
def clearArgs (p : Process) : Process :=
  { p with argv := p.argv.take 0 }

/-- Member `clearEnvs`: `envp.resize(0)`. -/
def clearEnvs (p : Process) : Process :=
  { p with envp := p.envp.take 0 }

/-- The constructor `Process::Process(path, args, envs)` (`src/Process.cpp` lines 19-28),
run on an object holding the default member initialisers. It issues no system call. -/
def ctor (path : String) (args envs : List String) : Process :=
  let p : Process := {}
  let p := { p with path := path }
  let p := { p with argv := p.argv ++ [path] }
  let p := if args.isEmpty = false then p.addArgs args else p
  let p := if envs.isEmpty = false then p.addEnvs envs else p
  p

/-! ## Teardown (`src/Process.cpp` lines 64-85, the same text in `src/src/Process.cpp`) -/

/-- Member `stop`: the new object and the system calls issued. -/
def stop (p : Process) : Process × List Call :=
  let t : List Call := []
  let (p, t) :=
    if p.err ≠ -1 then ({ p with err := -1 }, t ++ [Call.close p.err]) else (p, t)
  let (p, t) :=
    if p.in_ ≠ -1 then ({ p with in_ := -1 }, t ++ [Call.close p.in_]) else (p, t)
  let (p, t) :=
    if p.out ≠ -1 then ({ p with out := -1 }, t ++ [Call.close p.out]) else (p, t)
  if p.pid ≠ -1 then
    ({ p with pid := -1 }, t ++ [Call.kill p.pid Sys.SIGKILL, Call.waitpid p.pid Sys.WNOHANG])
  else (p, t)

/-! ## Liveness check -/

/-- What the operating system answers during one `check()`. -/
structure CheckEnv where
  /-- Value returned by `waitpid(pid, NULL, WNOHANG)`. -/
  waitRet : Int
  /-- Value returned by `kill(pid, 0)`. -/
  killRet : Int
  /-- Value of `errno` when it is read after `kill`. -/
  errno : Int
deriving DecidableEq, Repr

/-- Member `check` of `src/Process.cpp` (lines 57-62): the value of `waitpid` is discarded,
the probe `kill(pid, 0)` decides. -/
def check (p : Process) (w : CheckEnv) : Process × List Call :=
  let t : List Call := [Call.waitpid p.pid Sys.WNOHANG]
  let t := t ++ [Call.kill p.pid 0]
  if w.killRet = -1 ∧ (w.errno = Sys.ESRCH ∨ w.errno = Sys.EPERM) then
    let r := p.stop
    (r.1, t ++ r.2)
  else (p, t)

/-! ## Launch (`src/Process.cpp` lines 94-164) -/

/-- What the operating system answers during one `start()`. -/
structure StartEnv where
  /-- Contents of `epipe` after `pipe(epipe)`: the two descriptors when the call succeeds,
  whatever the uninitialised array held when it fails. -/
  epipe : Int × Int
  /-- Contents of `ipipe` after `pipe(ipipe)`. -/
  ipipe : Int × Int
  /-- Contents of `opipe` after `pipe(opipe)`. -/
  opipe : Int × Int
  /-- Indeterminate initial content of the cells of `new char*[argv.size() + 1]`. -/
  junkArgv : Nat → Ptr
  /-- Indeterminate initial content of the cells of `new char*[envp.size() + 1]`. -/
  junkEnvp : Nat → Ptr
  /-- Value returned by `fork()` in the process that is followed: `-1` on failure, the
  identifier of the child in the parent, `0` in the child. -/
  forkRet : Int
  /-- Pairs (return value, `errno`) of the successive attempts of `dup2(epipe[1], 2)`;
  attempts beyond the list succeed. -/
  dupErr : List (Int × Int)
  /-- Same for `dup2(ipipe[0], 0)`. -/
  dupIn : List (Int × Int)
  /-- Same for `dup2(opipe[1], 1)`. -/
  dupOut : List (Int × Int)
  /-- Whether `execve` succeeds (it then never returns). -/
  execOk : Bool

/-- How a call of `start()` ends in the process that is followed. -/
inductive Outcome
  /-- The call returned `retVal` to its caller, the object being `p`. -/
  | returned (p : Process) (retVal : Bool)
  /-- The call never returned: `execve` replaced the process image. -/
  | replaced
  /-- The call never returned: the process ended in `_exit(status)`. -/
  | exited (status : Int)
deriving DecidableEq, Repr

/-- The C string found at the address `&s[0]` or `s.c_str()` of a `std::string` holding
`s`: the buffer holds the characters of `s` followed by a NUL, so a reader of the pointer
gets the characters of `s` before its first NUL character. -/
def cstr (s : String) : String :=
  String.mk (s.data.takeWhile (fun c => c != Char.ofNat 0))

/-- The `std::string` holds no NUL character. -/
def nulFree (s : String) : Prop := Char.ofNat 0 ∉ s.data

instance (s : String) : Decidable (nulFree s) := by
  unfold nulFree; infer_instance

/-- The range-for loop `for (arg : xs) a[i++] = &arg[0];` on the array `a` from index `i`:
the array and the index after the loop. -/
def fillVec (xs : List String) (a : List Ptr) (i : Nat) : List Ptr × Nat :=
  xs.foldl (fun st arg => (st.1.set st.2 (some (cstr arg)), st.2 + 1)) (a, i)

/-- The array built by `start()` from one of the two lists: `new char*[xs.size() + 1]`,
one cell written per entry, then `a[i] = NULL`. -/
def buildVec (junk : Nat → Ptr) (xs : List String) : List Ptr :=
  let a : List Ptr := (List.range (xs.length + 1)).map junk
  let r := fillVec xs a 0
  r.1.set r.2 none

/-- The vector that `execve` reads out of an array of pointers: the C strings of the cells
before the first `NULL`. -/
def cvec : List Ptr → List String
  | some s :: rest => s :: cvec rest
  | _ => []

/-- The loop `while ((dup2(oldfd, newfd) == -1) && (errno == EINTR));`: the calls issued,
given the answers to the successive attempts. -/
def dup2Retry (oldfd newfd : Int) : List (Int × Int) → List Call
  | [] => [Call.dup2 oldfd newfd]
  | r :: rest =>
    if r.1 = -1 ∧ r.2 = Sys.EINTR then Call.dup2 oldfd newfd :: dup2Retry oldfd newfd rest
    else [Call.dup2 oldfd newfd]

/-- Member `start` of `src/Process.cpp`: how the call ends and the system calls issued.
The two `delete[]` touch no member and issue no system call. -/
def start (p : Process) (w : StartEnv) : Outcome × List Call :=
  let retVal := false
  if p.pid = -1 then
    let t : List Call :=
      [Call.pipe w.epipe.1 w.epipe.2, Call.pipe w.ipipe.1 w.ipipe.2,
       Call.pipe w.opipe.1 w.opipe.2]
    let argv := buildVec w.junkArgv p.argv
    let envp := buildVec w.junkEnvp p.envp
    let t := t ++ [Call.fork]
    let p := { p with pid := w.forkRet }
    if p.pid = 0 then
      let t := t ++ [Call.close w.epipe.1, Call.close w.ipipe.2, Call.close w.opipe.1]
      let t := t ++ dup2Retry w.epipe.2 Sys.STDERR_FILENO w.dupErr
      let t := t ++ dup2Retry w.ipipe.1 Sys.STDIN_FILENO w.dupIn
      let t := t ++ dup2Retry w.opipe.2 Sys.STDOUT_FILENO w.dupOut
      let t := t ++ [Call.close w.epipe.2, Call.close w.ipipe.1, Call.close w.opipe.2]
      let t := t ++ [Call.setsid]
      let t := t ++ [Call.execve (cstr p.path) argv envp]
      if w.execOk then (Outcome.replaced, t)
      else (Outcome.exited 1, t ++ [Call._exit 1])
    else
      let t := t ++ [Call.close w.epipe.2, Call.close w.ipipe.1, Call.close w.opipe.2]
      let p := { p with err := w.epipe.1, in_ := w.ipipe.2, out := w.opipe.1 }
      let retVal := if p.pid ≠ -1 then true else false
      (Outcome.returned p retVal, t)
  else (Outcome.returned p retVal, [])

/-! ## The second copy, `src/src/Process.cpp`

Its constructor, mutators and `stop` are the text embedded above. -/

namespace SrcSrc

/-- Member `check` of `src/src/Process.cpp` (lines 56-59): teardown when `waitpid` returns
a positive value; no probe. -/
def check (p : Process) (w : CheckEnv) : Process × List Call :=
  let t : List Call := [Call.waitpid p.pid Sys.WNOHANG]
  if w.waitRet > 0 then
    let r := p.stop
    (r.1, t ++ r.2)
  else (p, t)

/-- Member `start` of `src/src/Process.cpp` (lines 91-158): as `Process.start`, each
`dup2` attempted once. -/
def start (p : Process) (w : StartEnv) : Outcome × List Call :=
  let retVal := false
  if p.pid = -1 then
    let t : List Call :=
      [Call.pipe w.epipe.1 w.epipe.2, Call.pipe w.ipipe.1 w.ipipe.2,
       Call.pipe w.opipe.1 w.opipe.2]
    let argv := buildVec w.junkArgv p.argv
    let envp := buildVec w.junkEnvp p.envp
    let t := t ++ [Call.fork]
    let p := { p with pid := w.forkRet }
    if p.pid = 0 then
      let t := t ++ [Call.close w.epipe.1, Call.close w.ipipe.2, Call.close w.opipe.1]
      let t := t ++ [Call.dup2 w.epipe.2 Sys.STDERR_FILENO, Call.dup2 w.ipipe.1 Sys.STDIN_FILENO,
        Call.dup2 w.opipe.2 Sys.STDOUT_FILENO]
      let t := t ++ [Call.close w.epipe.2, Call.close w.ipipe.1, Call.close w.opipe.2]
      let t := t ++ [Call.setsid]
      let t := t ++ [Call.execve (cstr p.path) argv envp]
      if w.execOk then (Outcome.replaced, t)
      else (Outcome.exited 1, t ++ [Call._exit 1])
    else
      let t := t ++ [Call.close w.epipe.2, Call.close w.ipipe.1, Call.close w.opipe.2]
      let p := { p with err := w.epipe.1, in_ := w.ipipe.2, out := w.opipe.1 }
      let retVal := if p.pid ≠ -1 then true else false
      (Outcome.returned p retVal, t)
  else (Outcome.returned p retVal, [])

end SrcSrc

/-! ## Sequences of member calls -/

/-- One call of a public member function on a handle, with the answers of the operating
system where the member asks for any. -/
inductive Op
  | addArg (arg : String)
  | addArgs (args : List String)
  | addEnv (env : String)
  | addEnvs (envs : List String)
  | clearArgs
  | clearEnvs
  | start (w : StartEnv)
  | check (w : CheckEnv)
  | stop

/-- The handle after one member call; `none` when the call does not return (the child
side of `fork`, which goes on to `execve` or `_exit`). -/
def step (p : Process) : Op → Option Process
  | Op.addArg arg => some (p.addArg arg)
  | Op.addArgs args => some (p.addArgs args)
  | Op.addEnv env => some (p.addEnv env)
  | Op.addEnvs envs => some (p.addEnvs envs)
  | Op.clearArgs => some p.clearArgs
  | Op.clearEnvs => some p.clearEnvs
  | Op.start w =>
    match (p.start w).1 with
    | Outcome.returned q _ => some q
    | _ => none
  | Op.check w => some (p.check w).1
  | Op.stop => some p.stop.1

/-- The handle after a sequence of member calls, `none` when one of them does not return. -/
def run (p : Process) : List Op → Option Process
  | [] => some p
  | op :: ops =>
    match p.step op with
    | some q => run q ops
    | none => none

/-- Pipe creation succeeded with valid descriptors in this member call: the six array
cells left by the three `pipe` calls of a `start` are non-negative. -/
def Op.pipesOk : Op → Prop
  | Op.start w =>
    0 ≤ w.epipe.1 ∧ 0 ≤ w.epipe.2 ∧ 0 ≤ w.ipipe.1 ∧ 0 ≤ w.ipipe.2 ∧
    0 ≤ w.opipe.1 ∧ 0 ≤ w.opipe.2
  | _ => True

instance (op : Op) : Decidable op.pipesOk := by
  cases op <;> unfold Op.pipesOk <;> infer_instance

/-- All three descriptors and the process identifier hold the sentinel `-1`. -/
def tornDown (p : Process) : Prop :=
  p.err = -1 ∧ p.in_ = -1 ∧ p.out = -1 ∧ p.pid = -1

instance (p : Process) : Decidable (tornDown p) := by
  unfold tornDown; infer_instance

end Process

/-! ## Concrete inputs -/

namespace Process

/-- A handle in the running state: child 42, streams on the descriptors 3, 6 and 7. -/
def exRunning : Process :=
  { err := 3, in_ := 6, out := 7, pid := 42, path := "/bin/cat", argv := ["/bin/cat"],
    envp := [] }

/-- Answers to a launch in which the three pipes receive the descriptors 3 to 8, every
`dup2` succeeds at once, `execve` fails when `execOk` is false, and `fork` returns
`forkRet`. -/
def exStartEnv (forkRet : Int) (execOk : Bool) : StartEnv :=
  { epipe := (3, 4), ipipe := (5, 6), opipe := (7, 8),
    junkArgv := fun _ => some "junk", junkEnvp := fun _ => some "junk",
    forkRet := forkRet, dupErr := [], dupIn := [], dupOut := [], execOk := execOk }

/-- Answers to a liveness check: `waitpid` returns `waitRet`, `kill` returns `killRet`
with `errno` as given. -/
def exCheckEnv (waitRet killRet errno : Int) : CheckEnv :=
  { waitRet := waitRet, killRet := killRet, errno := errno }

end Process

/-! ## Auxiliary lemmas -/

namespace Process

/-- The loop of `addArgs` appends the whole list. -/
theorem addArgs_eq (p : Process) (args : List String) :
    p.addArgs args = { p with argv := p.argv ++ args } := by
  unfold addArgs
  induction args generalizing p with
  | nil => simp
  | cons a rest ih => simp [List.foldl_cons, ih, addArg]

/-- The loop of `addEnvs` appends the whole list. -/
theorem addEnvs_eq (p : Process) (envs : List String) :
    p.addEnvs envs = { p with envp := p.envp ++ envs } := by
  unfold addEnvs
  induction envs generalizing p with
  | nil => simp
  | cons a rest ih => simp [List.foldl_cons, ih, addEnv]

/-- The object after `stop()`. -/
theorem stop_fst (s : Process) :
    s.stop.1 = { s with err := -1, in_ := -1, out := -1, pid := -1 } := by
  obtain ⟨e, i, o, p, pa, av, ev⟩ := s
  unfold stop
  by_cases he : e = -1 <;> by_cases hi : i = -1 <;> by_cases ho : o = -1 <;>
    by_cases hp : p = -1 <;> simp [he, hi, ho, hp]

/-- The system calls of `stop()`. -/
theorem stop_snd (s : Process) :
    s.stop.2 =
      (if s.err ≠ -1 then [Call.close s.err] else []) ++
      (if s.in_ ≠ -1 then [Call.close s.in_] else []) ++
      (if s.out ≠ -1 then [Call.close s.out] else []) ++
      (if s.pid ≠ -1 then [Call.kill s.pid Sys.SIGKILL, Call.waitpid s.pid Sys.WNOHANG]
        else []) := by
  obtain ⟨e, i, o, p, pa, av, ev⟩ := s
  unfold stop
  by_cases he : e = -1 <;> by_cases hi : i = -1 <;> by_cases ho : o = -1 <;>
    by_cases hp : p = -1 <;> simp [he, hi, ho, hp]

/-- Writing the cell that follows a prefix of an array. -/
theorem set_append_at {α : Type} (l : List α) (y v : α) (ys : List α) :
    (l ++ y :: ys).set l.length v = l ++ v :: ys := by
  induction l with
  | nil => rfl
  | cons a l ih => simp [ih]

/-- The fill loop started at the end of the cells already filled writes one pointer per
entry, in order, into the cells that follow, provided the array has room for them. -/
theorem fillVec_append (xs : List String) (filled rest : List Ptr)
    (h : xs.length ≤ rest.length) :
    fillVec xs (filled ++ rest) filled.length
      = (filled ++ xs.map (fun a => some (cstr a)) ++ rest.drop xs.length,
          filled.length + xs.length) := by
  induction xs generalizing filled rest with
  | nil => simp [fillVec]
  | cons x xs ih =>
    cases rest with
    | nil => simp at h
    | cons r rest =>
      have hlen : xs.length ≤ rest.length := by simpa using h
      have := ih (filled ++ [some (cstr x)]) rest hlen
      simp only [fillVec, List.foldl_cons] at this ⊢
      rw [set_append_at]
      simp only [List.length_append, List.length_singleton, List.append_assoc,
        List.singleton_append] at this
      rw [this]
      simp [Nat.add_comm, Nat.add_left_comm, Nat.add_assoc]

/-- The array built by `start()`: one pointer per entry, to its C string, then `NULL`,
whatever the allocated cells held. -/
theorem buildVec_eq (junk : Nat → Ptr) (xs : List String) :
    buildVec junk xs = xs.map (fun a => some (cstr a)) ++ [none] := by
  unfold buildVec
  have h := fillVec_append xs [] ((List.range (xs.length + 1)).map junk) (by simp)
  simp only [List.nil_append, List.length_nil, Nat.zero_add] at h
  simp only [h]
  have hd : ((List.range (xs.length + 1)).map junk).drop xs.length = [junk xs.length] := by
    rw [List.range_succ]; simp
  rw [hd]
  have h1 := set_append_at (xs.map (fun a => some (cstr a))) (junk xs.length) none []
  rw [List.length_map] at h1
  exact h1

/-- Reading back an array of non-null pointers closed by `NULL`. -/
theorem cvec_map_some (xs : List String) (rest : List Ptr) :
    cvec (xs.map some ++ none :: rest) = xs := by
  induction xs with
  | nil => simp [cvec]
  | cons x xs ih => simp [cvec, ih]

/-- The C string of a `std::string` without NUL character is the whole string. -/
theorem cstr_of_nulFree (s : String) (h : nulFree s) : cstr s = s := by
  unfold cstr
  have hd : s.data.takeWhile (fun c => c != Char.ofNat 0) = s.data := by
    rw [List.takeWhile_eq_self_iff]
    intro c hc
    simp only [bne_iff_ne, ne_eq]
    intro hc0
    exact h (hc0 ▸ hc)
  rw [hd]

/-- On a list of `std::string` without NUL character the pointers lead to the entries
themselves. -/
theorem map_cstr_of_nulFree (xs : List String) (h : ∀ a ∈ xs, nulFree a) :
    xs.map (fun a => some (cstr a)) = xs.map some := by
  apply List.map_congr_left
  intro a ha
  rw [cstr_of_nulFree a (h a ha)]

/-- The branch of `start()` taken when `fork` returns a non-zero value. -/
theorem start_parent (s : Process) (w : StartEnv) (hpid : s.pid = -1) (hfork : w.forkRet ≠ 0) :
    s.start w =
      (Outcome.returned
        { s with pid := w.forkRet, err := w.epipe.1, in_ := w.ipipe.2, out := w.opipe.1 }
        (decide (w.forkRet ≠ -1)),
       [Call.pipe w.epipe.1 w.epipe.2, Call.pipe w.ipipe.1 w.ipipe.2,
        Call.pipe w.opipe.1 w.opipe.2, Call.fork,
        Call.close w.epipe.2, Call.close w.ipipe.1, Call.close w.opipe.2]) := by
  unfold start
  by_cases h : w.forkRet = -1 <;> simp [hpid, hfork, h]

/-- The branch of `start()` taken when `fork` returns 0. -/
theorem start_child (s : Process) (w : StartEnv) (hpid : s.pid = -1) (hfork : w.forkRet = 0) :
    s.start w =
      (if w.execOk then Outcome.replaced else Outcome.exited 1,
       [Call.pipe w.epipe.1 w.epipe.2, Call.pipe w.ipipe.1 w.ipipe.2,
        Call.pipe w.opipe.1 w.opipe.2, Call.fork,
        Call.close w.epipe.1, Call.close w.ipipe.2, Call.close w.opipe.1] ++
       dup2Retry w.epipe.2 Sys.STDERR_FILENO w.dupErr ++
       dup2Retry w.ipipe.1 Sys.STDIN_FILENO w.dupIn ++
       dup2Retry w.opipe.2 Sys.STDOUT_FILENO w.dupOut ++
       [Call.close w.epipe.2, Call.close w.ipipe.1, Call.close w.opipe.2, Call.setsid] ++
       Call.execve (cstr s.path) (s.argv.map (fun a => some (cstr a)) ++ [none])
           (s.envp.map (fun a => some (cstr a)) ++ [none]) ::
         (if w.execOk then [] else [Call._exit 1])) := by
  unfold start
  cases hx : w.execOk <;> simp [hpid, hfork, buildVec_eq]

/-- The guard of `start()` on a handle whose pid is not `-1`. -/
theorem start_noop (s : Process) (w : StartEnv) (h : s.pid ≠ -1) :
    s.start w = (Outcome.returned s false, []) := by
  unfold start; simp [h]

/-- The object built by the constructor. -/
theorem ctor_eq (path : String) (args envs : List String) :
    ctor path args envs =
      { err := -1, in_ := -1, out := -1, pid := -1, path := path,
        argv := path :: args, envp := envs } := by
  unfold ctor
  cases args <;> cases envs <;> simp [addArgs_eq, addEnvs_eq]

/-- The retry loop issues `dup2` calls only. -/
theorem dup2Retry_no_execve (oldfd newfd : Int) (l : List (Int × Int)) :
    ∀ c ∈ dup2Retry oldfd newfd l, c = Call.dup2 oldfd newfd := by
  induction l with
  | nil => intro c hc; simpa [dup2Retry] using hc
  | cons r rest ih =>
    intro c hc
    unfold dup2Retry at hc
    split at hc
    · rcases List.mem_cons.1 hc with h | h
      · exact h
      · exact ih c h
    · simpa using hc

end Process

/-! ## Construction and mutators -/

namespace Process

/-- C1: for every path, argument list and environment list, the handle built by the
constructor has argument list `path` followed by `args` in order (entry 0 is `path`, also
when `args` is empty), environment list `envs`, and `pid` and the three descriptors at the
sentinel `-1`; the constructor issues no system call, so no process is started. -/
theorem ctor_spec (path : String) (args envs : List String) :
    ctor path args envs =
      { err := -1, in_ := -1, out := -1, pid := -1, path := path,
        argv := path :: args, envp := envs } ∧
    (ctor path args envs).argv.head? = some path ∧
    (ctor path [] envs).argv = [path] ∧
    (ctor path args envs).getPID = -1 ∧ (ctor path args envs).getErr = -1 ∧
    (ctor path args envs).getIn = -1 ∧ (ctor path args envs).getOut = -1 := by
  have h := ctor_eq path args envs
  have h0 := ctor_eq path [] envs
  refine ⟨h, ?_, ?_, ?_, ?_, ?_, ?_⟩
  · rw [h]; rfl
  · rw [h0]
  · rw [h]; rfl
  · rw [h]; rfl
  · rw [h]; rfl
  · rw [h]; rfl

/-- C9: each mutator changes its own list and nothing else, in every handle state (running
or not): `addArg` and `addArgs` append at the end of the argument list, in order, `addEnv`
and `addEnvs` at the end of the environment list, `clearArgs` and `clearEnvs` empty their
list; path, pid, the three descriptors and the other list are as before. -/
theorem mutators_frame (s : Process) (arg env : String) (args envs : List String) :
    s.addArg arg = { s with argv := s.argv ++ [arg] } ∧
    s.addArgs args = { s with argv := s.argv ++ args } ∧
    s.addEnv env = { s with envp := s.envp ++ [env] } ∧
    s.addEnvs envs = { s with envp := s.envp ++ envs } ∧
    s.clearArgs = { s with argv := [] } ∧
    s.clearEnvs = { s with envp := [] } :=
  ⟨rfl, addArgs_eq s args, rfl, addEnvs_eq s envs, rfl, rfl⟩

/-! ## Launch on a running handle -/

/-- C2: on a handle whose pid is not `-1`, `start()` returns false, leaves every member
(pid, the three descriptors, path, both lists) as it was and issues no system call, so no
pipe is created and nothing is forked; the same holds for the copy in `src/src`. -/
theorem start_when_running (s : Process) (w : StartEnv) (h : s.pid ≠ -1) :
    s.start w = (Outcome.returned s false, []) ∧
    SrcSrc.start s w = (Outcome.returned s false, []) := by
  constructor
  · exact start_noop s w h
  · unfold SrcSrc.start; simp [h]

/-- Witness of C2: the running handle `exRunning` (pid 42), launched again. -/
theorem start_when_running_witness :
    exRunning.pid ≠ -1 ∧
    exRunning.start (exStartEnv 43 true) = (Outcome.returned exRunning false, []) ∧
    SrcSrc.start exRunning (exStartEnv 43 true) = (Outcome.returned exRunning false, []) :=
  ⟨by decide, start_when_running exRunning (exStartEnv 43 true) (by decide)⟩

/-! ## Teardown -/

/-- C3: `stop()` is idempotent. From every handle state the state after `stop()` has `err`,
`in`, `out` and `pid` at `-1` (path and lists untouched); a second `stop()` changes nothing
and issues no call; the calls of the first are one `close` for each descriptor member that
was not `-1`, in the order err, in, out, followed by `kill(pid, SIGKILL)` and
`waitpid(pid, NULL, WNOHANG)` exactly when `pid` was not `-1`. Hence over both calls the
number of `close(d)` is the number of descriptor members that held `d` (one for a
descriptor held by one member), `close(-1)` is never issued, and a `kill` or a `waitpid`
is issued only on the tracked pid and only when it was not `-1`. -/
theorem stop_idempotent (s : Process) :
    tornDown s.stop.1 ∧
    s.stop.1 = { s with err := -1, in_ := -1, out := -1, pid := -1 } ∧
    s.stop.1.stop = (s.stop.1, []) ∧
    s.stop.2 =
      (if s.err ≠ -1 then [Call.close s.err] else []) ++
      (if s.in_ ≠ -1 then [Call.close s.in_] else []) ++
      (if s.out ≠ -1 then [Call.close s.out] else []) ++
      (if s.pid ≠ -1 then [Call.kill s.pid Sys.SIGKILL, Call.waitpid s.pid Sys.WNOHANG]
        else []) ∧
    (∀ d : Int, (s.stop.2 ++ s.stop.1.stop.2).count (Call.close d) =
      if d = -1 then 0 else [s.err, s.in_, s.out].count d) ∧
    (∀ q sig : Int, Call.kill q sig ∈ s.stop.2 ↔ (s.pid ≠ -1 ∧ q = s.pid ∧ sig = Sys.SIGKILL)) ∧
    (∀ q opt : Int, Call.waitpid q opt ∈ s.stop.2 ↔
      (s.pid ≠ -1 ∧ q = s.pid ∧ opt = Sys.WNOHANG)) := by
  have h2 : s.stop.1.stop = (s.stop.1, []) := by
    rw [stop_fst]; rfl
  refine ⟨?_, stop_fst s, h2, stop_snd s, ?_, ?_, ?_⟩
  · rw [stop_fst]; exact ⟨rfl, rfl, rfl, rfl⟩
  · intro d
    rw [h2, stop_snd]
    by_cases he : s.err = -1 <;> by_cases hi : s.in_ = -1 <;> by_cases ho : s.out = -1 <;>
      by_cases hp : s.pid = -1 <;> by_cases hd : d = -1 <;>
      simp [he, hi, ho, hp, hd, List.count_cons]
  · intro q sig
    rw [stop_snd]
    by_cases he : s.err = -1 <;> by_cases hi : s.in_ = -1 <;> by_cases ho : s.out = -1 <;>
      by_cases hp : s.pid = -1 <;> simp [he, hi, ho, hp]
  · intro q opt
    rw [stop_snd]
    by_cases he : s.err = -1 <;> by_cases hi : s.in_ = -1 <;> by_cases ho : s.out = -1 <;>
      by_cases hp : s.pid = -1 <;> simp [he, hi, ho, hp]

/-! ## Launch on a handle that is not running -/

/-- C4: evaluation of `start()` on a freshly constructed handle when `fork` fails (returns
`-1`) after the three pipes were created on the descriptors 3 to 8. The call returns false
and pid stays `-1`, but the else-branch, taken for every non-zero value of `fork`, has
stored the pipe ends: `err`, `in`, `out` are 3, 6, 7 and not the closed sentinel. Both
copies of the implementation behave so. -/
theorem start_fork_failure_stores_pipe_ends :
    (ctor "/bin/cat" [] []).start (exStartEnv (-1) true) =
      (Outcome.returned
        { err := 3, in_ := 6, out := 7, pid := -1, path := "/bin/cat", argv := ["/bin/cat"],
          envp := [] } false,
       [Call.pipe 3 4, Call.pipe 5 6, Call.pipe 7 8, Call.fork,
        Call.close 4, Call.close 5, Call.close 8]) ∧
    SrcSrc.start (ctor "/bin/cat" [] []) (exStartEnv (-1) true) =
      (Outcome.returned
        { err := 3, in_ := 6, out := 7, pid := -1, path := "/bin/cat", argv := ["/bin/cat"],
          envp := [] } false,
       [Call.pipe 3 4, Call.pipe 5 6, Call.pipe 7 8, Call.fork,
        Call.close 4, Call.close 5, Call.close 8]) ∧
    tornDown (ctor "/bin/cat" [] []) ∧
    ¬ tornDown { err := 3, in_ := 6, out := 7, pid := -1, path := "/bin/cat",
                 argv := ["/bin/cat"], envp := [] } := by
  refine ⟨?_, ?_, ?_, ?_⟩
  · simp [start, ctor, exStartEnv]
  · simp [SrcSrc.start, ctor, exStartEnv]
  · simp [tornDown, ctor]
  · simp [tornDown]

/-- C5: on a handle with pid `-1`, in the calling process (where `fork` does not return 0)
`start()` returns, and returns true if and only if `fork` returned something other than
`-1`; neither the stored path nor the success of `execve` in the child changes the value
returned; when it returns true and the six pipe descriptors are valid and pairwise
distinct, pid is the value of `fork` and `getErr`, `getIn`, `getOut` are the read end of
the error pipe, the write end of the input pipe and the read end of the output pipe, which
are pairwise distinct and not `-1`. Where `fork` returns 0 (the child), `start()` does not
return. -/
theorem start_returns_true_iff (s : Process) (w : StartEnv) (hpid : s.pid = -1) :
    (w.forkRet ≠ 0 →
      ∃ s1 ret, (s.start w).1 = Outcome.returned s1 ret ∧
        (ret = true ↔ w.forkRet ≠ -1) ∧
        (∀ (path : String) (ok : Bool), ∃ s2,
          ({ s with path := path }.start { w with execOk := ok }).1 =
            Outcome.returned s2 ret) ∧
        (ret = true →
          [w.epipe.1, w.epipe.2, w.ipipe.1, w.ipipe.2, w.opipe.1, w.opipe.2].Nodup →
          (∀ d ∈ [w.epipe.1, w.epipe.2, w.ipipe.1, w.ipipe.2, w.opipe.1, w.opipe.2],
            (0 : Int) ≤ d) →
          s1.getPID = w.forkRet ∧
          s1.getErr = w.epipe.1 ∧ s1.getIn = w.ipipe.2 ∧ s1.getOut = w.opipe.1 ∧
          s1.getErr ≠ s1.getIn ∧ s1.getErr ≠ s1.getOut ∧ s1.getIn ≠ s1.getOut ∧
          s1.getErr ≠ -1 ∧ s1.getIn ≠ -1 ∧ s1.getOut ≠ -1)) ∧
    (w.forkRet = 0 → ∀ s1 ret, (s.start w).1 ≠ Outcome.returned s1 ret) := by
  constructor
  · intro hfork
    refine ⟨_, _, by rw [start_parent s w hpid hfork], by simp, ?_, ?_⟩
    · intro path ok
      exact ⟨_, by rw [start_parent { s with path := path } { w with execOk := ok } hpid hfork]⟩
    · intro _ hnd hval
      simp only [List.nodup_cons, List.mem_cons, List.mem_singleton, not_or] at hnd
      have he := hval w.epipe.1 (by simp)
      have hi := hval w.ipipe.2 (by simp)
      have ho := hval w.opipe.1 (by simp)
      refine ⟨rfl, rfl, rfl, rfl, ?_, ?_, ?_, ?_, ?_, ?_⟩
      · exact hnd.1.2.2.1
      · exact hnd.1.2.2.2.1
      · exact hnd.2.2.2.1.1
      · show w.epipe.1 ≠ -1
        omega
      · show w.ipipe.2 ≠ -1
        omega
      · show w.opipe.1 ≠ -1
        omega
  · intro hfork s1 ret
    rw [start_child s w hpid hfork]
    cases w.execOk <;> simp

/-- Witness of C5: a freshly constructed handle, pipes on the descriptors 3 to 8, `fork`
returning the child 42. -/
theorem start_returns_true_iff_witness :
    (ctor "/bin/cat" [] []).pid = -1 ∧
    ∃ s1 ret, ((ctor "/bin/cat" [] []).start (exStartEnv 42 true)).1 =
        Outcome.returned s1 ret ∧
      (ret = true ↔ (exStartEnv 42 true).forkRet ≠ -1) :=
  ⟨rfl,
    let ⟨s1, ret, h1, h2, _⟩ :=
      (start_returns_true_iff (ctor "/bin/cat" [] []) (exStartEnv 42 true) rfl).1
        (by decide)
    ⟨s1, ret, h1, h2⟩⟩

/-! ## Liveness check -/

/-- C10: evaluation of `check()` on a freshly constructed handle (pid and descriptors at
`-1`). `src/Process.cpp` issues `waitpid(-1, NULL, WNOHANG)` and `kill(-1, 0)`, and
`src/src/Process.cpp` issues `waitpid(-1, NULL, WNOHANG)`: the sentinel itself is the
process argument of the wait and of the probe (here the wait reaps a child 77 that the
handle never launched). The handle is left as it was. -/
theorem check_not_started_targets_sentinel :
    tornDown (ctor "/bin/cat" [] []) ∧
    (ctor "/bin/cat" [] []).check (exCheckEnv 77 0 0) =
      (ctor "/bin/cat" [] [], [Call.waitpid (-1) Sys.WNOHANG, Call.kill (-1) 0]) ∧
    SrcSrc.check (ctor "/bin/cat" [] []) (exCheckEnv 77 0 0) =
      (ctor "/bin/cat" [] [], [Call.waitpid (-1) Sys.WNOHANG]) := by
  refine ⟨?_, ?_, ?_⟩
  · simp [tornDown, ctor]
  · simp [check, ctor, exCheckEnv]
  · simp [SrcSrc.check, ctor, exCheckEnv, stop]

/-! ## The vectors handed to `execve` -/

/-- C7, counterexample. A handle with pid `-1` whose path, second argument and environment
entry hold a NUL character (`/bin/echo`, NUL, `x`; `a`, NUL, `b`; `K=v`, NUL, `w`),
followed into the child: `execve` is handed the pointers `path.c_str()` and `&arg[0]`,
whose C strings end at the first NUL, so the program is `/bin/echo`, the argument vector
has `a` where the list has the three-character entry, and the environment vector has
`K=v`; neither vector is the list of the handle and the program is not the stored path. -/
theorem start_execve_nul_counterexample :
    (ctor "/bin/echo\x00x" ["a\x00b"] ["K=v\x00w"]).pid = -1 ∧
    ((ctor "/bin/echo\x00x" ["a\x00b"] ["K=v\x00w"]).start (exStartEnv 0 true)).2 =
      [Call.pipe 3 4, Call.pipe 5 6, Call.pipe 7 8, Call.fork,
       Call.close 3, Call.close 6, Call.close 7,
       Call.dup2 4 2, Call.dup2 5 0, Call.dup2 8 1,
       Call.close 4, Call.close 5, Call.close 8, Call.setsid,
       Call.execve "/bin/echo" [some "/bin/echo", some "a", none] [some "K=v", none]] ∧
    cvec [some "/bin/echo", some "a", none] ≠
      (ctor "/bin/echo\x00x" ["a\x00b"] ["K=v\x00w"]).argv ∧
    cvec [some "K=v", none] ≠ (ctor "/bin/echo\x00x" ["a\x00b"] ["K=v\x00w"]).envp ∧
    "/bin/echo" ≠ (ctor "/bin/echo\x00x" ["a\x00b"] ["K=v\x00w"]).path := by
  refine ⟨rfl, ?_, ?_, ?_, ?_⟩
  · rw [start_child _ _ rfl rfl]
    decide
  · decide
  · decide
  · decide

/-- C7, amended: on a handle with pid `-1` whose path, argument entries and environment
entries hold no NUL character, in the child (where `fork` returns 0) `start()` issues
exactly one `execve`, with the stored path as program and, as arrays, one pointer per
entry of the current argument list and of the current environment list, in order, each
followed by one `NULL`; what `execve` reads from them is the two lists themselves. After
`clearArgs()` the argument array is the single `NULL`, an empty vector, the call still
reaches `execve` in the child and still returns its ordinary value in the parent. -/
theorem start_execve_vectors (s : Process) (w : StartEnv) (hpid : s.pid = -1)
    (hpath : nulFree s.path) (hargv : ∀ a ∈ s.argv, nulFree a)
    (henvp : ∀ a ∈ s.envp, nulFree a) :
    (w.forkRet = 0 →
      ∃ bef aft argvArr envpArr,
        (s.start w).2 = bef ++ Call.execve s.path argvArr envpArr :: aft ∧
        (∀ c ∈ bef ++ aft, ∀ pa a e, c ≠ Call.execve pa a e) ∧
        argvArr = s.argv.map some ++ [none] ∧ envpArr = s.envp.map some ++ [none] ∧
        argvArr.length = s.argv.length + 1 ∧ envpArr.length = s.envp.length + 1 ∧
        cvec argvArr = s.argv ∧ cvec envpArr = s.envp ∧
        (s.start w).1 = if w.execOk then Outcome.replaced else Outcome.exited 1) ∧
    (w.forkRet = 0 →
      ∃ bef aft,
        (s.clearArgs.start w).2 =
          bef ++ Call.execve s.path [none] (s.envp.map some ++ [none]) :: aft ∧
        (∀ c ∈ bef ++ aft, ∀ pa a e, c ≠ Call.execve pa a e) ∧
        cvec [none] = [] ∧
        (s.clearArgs.start w).1 = if w.execOk then Outcome.replaced else Outcome.exited 1) ∧
    (w.forkRet ≠ 0 →
      ∃ s1, (s.clearArgs.start w).1 = Outcome.returned s1 (decide (w.forkRet ≠ -1)) ∧
        ∀ c ∈ (s.clearArgs.start w).2, ∀ pa a e, c ≠ Call.execve pa a e) := by
  have key : ∀ t : Process, t.pid = -1 → nulFree t.path → (∀ a ∈ t.argv, nulFree a) →
      (∀ a ∈ t.envp, nulFree a) → w.forkRet = 0 →
      ∃ bef aft,
        (t.start w).2 =
          bef ++ Call.execve t.path (t.argv.map some ++ [none]) (t.envp.map some ++ [none])
            :: aft ∧
        (∀ c ∈ bef ++ aft, ∀ pa a e, c ≠ Call.execve pa a e) ∧
        (t.start w).1 = if w.execOk then Outcome.replaced else Outcome.exited 1 := by
    intro t ht hp ha he hfork
    rw [start_child t w ht hfork, cstr_of_nulFree _ hp, map_cstr_of_nulFree _ ha,
      map_cstr_of_nulFree _ he]
    refine ⟨_, _, rfl, ?_, rfl⟩
    intro c hc pa a e hce
    subst hce
    simp only [List.mem_append] at hc
    rcases hc with ((((h | h) | h) | h) | h) | h
    · simp at h
    · exact Call.noConfusion (dup2Retry_no_execve _ _ _ _ h)
    · exact Call.noConfusion (dup2Retry_no_execve _ _ _ _ h)
    · exact Call.noConfusion (dup2Retry_no_execve _ _ _ _ h)
    · simp at h
    · cases hx : w.execOk <;> simp [hx] at h
  refine ⟨?_, ?_, ?_⟩
  · intro hfork
    obtain ⟨bef, aft, h1, h2, h3⟩ := key s hpid hpath hargv henvp hfork
    exact ⟨bef, aft, _, _, h1, h2, rfl, rfl, by simp, by simp,
      cvec_map_some _ _, cvec_map_some _ _, h3⟩
  · intro hfork
    have hca : ∀ a ∈ s.clearArgs.argv, nulFree a := by
      intro a ha
      simp [clearArgs] at ha
    obtain ⟨bef, aft, h1, h2, h3⟩ := key s.clearArgs hpid hpath hca henvp hfork
    exact ⟨bef, aft, h1, h2, rfl, h3⟩
  · intro hfork
    have hc : s.clearArgs.pid = -1 := hpid
    rw [start_parent s.clearArgs w hc hfork]
    refine ⟨_, rfl, ?_⟩
    intro c hc pa a e hce
    subst hce
    simp at hc

/-- Witness of C7 (amended): the handle built from `/bin/cat`, one argument and one
environment entry, none with a NUL character, followed into the child. -/
theorem start_execve_vectors_witness :
    (ctor "/bin/cat" ["-n"] ["LANG=C"]).pid = -1 ∧
    nulFree (ctor "/bin/cat" ["-n"] ["LANG=C"]).path ∧
    (∀ a ∈ (ctor "/bin/cat" ["-n"] ["LANG=C"]).argv, nulFree a) ∧
    (∀ a ∈ (ctor "/bin/cat" ["-n"] ["LANG=C"]).envp, nulFree a) ∧
    ∃ bef aft,
      ((ctor "/bin/cat" ["-n"] ["LANG=C"]).start (exStartEnv 0 true)).2 =
        bef ++ Call.execve "/bin/cat" [some "/bin/cat", some "-n", none]
          [some "LANG=C", none] :: aft := by
  have hp : nulFree (ctor "/bin/cat" ["-n"] ["LANG=C"]).path := by decide
  have ha : ∀ a ∈ (ctor "/bin/cat" ["-n"] ["LANG=C"]).argv, nulFree a := by decide
  have he : ∀ a ∈ (ctor "/bin/cat" ["-n"] ["LANG=C"]).envp, nulFree a := by decide
  refine ⟨rfl, hp, ha, he, ?_⟩
  obtain ⟨bef, aft, a, e, h1, _, h2, h3, _⟩ :=
    (start_execve_vectors (ctor "/bin/cat" ["-n"] ["LANG=C"]) (exStartEnv 0 true) rfl
      hp ha he).1 rfl
  subst h2 h3
  exact ⟨bef, aft, h1⟩

/-! ## The invariant on reachable states -/

/-- One member call preserves: a pid other than `-1` comes with valid descriptors. -/
theorem step_keeps_streams_valid (p q : Process) (op : Op) (hok : op.pipesOk)
    (hstep : p.step op = some q)
    (hinv : p.pid ≠ -1 → 0 ≤ p.err ∧ 0 ≤ p.in_ ∧ 0 ≤ p.out) :
    q.pid ≠ -1 → 0 ≤ q.err ∧ 0 ≤ q.in_ ∧ 0 ≤ q.out := by
  cases op with
  | addArg arg => simp only [step, Option.some.injEq] at hstep; subst hstep; exact hinv
  | addArgs args =>
    simp only [step, Option.some.injEq, addArgs_eq] at hstep; subst hstep; exact hinv
  | addEnv env => simp only [step, Option.some.injEq] at hstep; subst hstep; exact hinv
  | addEnvs envs =>
    simp only [step, Option.some.injEq, addEnvs_eq] at hstep; subst hstep; exact hinv
  | clearArgs => simp only [step, Option.some.injEq] at hstep; subst hstep; exact hinv
  | clearEnvs => simp only [step, Option.some.injEq] at hstep; subst hstep; exact hinv
  | start w =>
    by_cases hp : p.pid = -1
    · by_cases hf : w.forkRet = 0
      · simp only [step, start_child p w hp hf] at hstep
        cases hx : w.execOk <;> simp [hx] at hstep
      · simp only [step, start_parent p w hp hf, Option.some.injEq] at hstep
        subst hstep
        intro _
        exact ⟨hok.1, hok.2.2.2.1, hok.2.2.2.2.1⟩
    · simp only [step, start_noop p w hp, Option.some.injEq] at hstep
      subst hstep; exact hinv
  | check w =>
    simp only [step, Option.some.injEq] at hstep
    subst hstep
    by_cases hk : w.killRet = -1 ∧ (w.errno = Sys.ESRCH ∨ w.errno = Sys.EPERM)
    · simp only [check, hk, and_self, if_true, stop_fst]
      intro h; exact absurd rfl h
    · simp only [check, hk, if_false]; exact hinv
  | stop =>
    simp only [step, Option.some.injEq] at hstep
    subst hstep
    rw [stop_fst]
    intro h; exact absurd rfl h

/-- A sequence of member calls preserves: a pid other than `-1` comes with valid
descriptors. -/
theorem run_keeps_streams_valid (ops : List Op) (p q : Process)
    (hok : ∀ op ∈ ops, op.pipesOk) (hrun : p.run ops = some q)
    (hinv : p.pid ≠ -1 → 0 ≤ p.err ∧ 0 ≤ p.in_ ∧ 0 ≤ p.out) :
    q.pid ≠ -1 → 0 ≤ q.err ∧ 0 ≤ q.in_ ∧ 0 ≤ q.out := by
  induction ops generalizing p with
  | nil => simp only [run, Option.some.injEq] at hrun; subst hrun; exact hinv
  | cons op ops ih =>
    simp only [run] at hrun
    cases hs : p.step op with
    | none => simp [hs] at hrun
    | some r =>
      simp only [hs] at hrun
      exact ih r (fun o ho => hok o (List.mem_cons_of_mem _ ho)) hrun
        (step_keeps_streams_valid p r op (hok op (List.mem_cons_self _ _)) hs hinv)

/-- C8: in every handle state reached from a freshly constructed handle by a sequence of
`addArg`, `addArgs`, `addEnv`, `addEnvs`, `clearArgs`, `clearEnvs`, `start`, `check` and
`stop` calls in which every pipe creation yielded valid (non-negative) descriptors, a pid
other than `-1` implies that the error, input and output descriptors are valid: each is
non-negative, so none is `-1`. -/
theorem running_implies_streams_valid (path : String) (args envs : List String)
    (ops : List Op) (s : Process) (hok : ∀ op ∈ ops, op.pipesOk)
    (hrun : (ctor path args envs).run ops = some s) (hpid : s.pid ≠ -1) :
    (0 ≤ s.err ∧ 0 ≤ s.in_ ∧ 0 ≤ s.out) ∧ (s.err ≠ -1 ∧ s.in_ ≠ -1 ∧ s.out ≠ -1) := by
  have h0 : (ctor path args envs).pid ≠ -1 →
      0 ≤ (ctor path args envs).err ∧ 0 ≤ (ctor path args envs).in_ ∧
        0 ≤ (ctor path args envs).out := by
    intro h
    rw [ctor_eq path args envs] at h
    exact absurd rfl h
  have h := run_keeps_streams_valid ops _ s hok hrun h0 hpid
  exact ⟨h, by omega, by omega, by omega⟩

/-- Witness of C8: construct, add an argument, launch with pipes on the descriptors 3 to 8
and child 42. -/
theorem running_implies_streams_valid_witness :
    (∀ op ∈ [Op.addArg "-n", Op.start (exStartEnv 42 true)], op.pipesOk) ∧
    (ctor "/bin/cat" [] []).run [Op.addArg "-n", Op.start (exStartEnv 42 true)] =
      some { err := 3, in_ := 6, out := 7, pid := 42, path := "/bin/cat",
             argv := ["/bin/cat", "-n"], envp := [] } ∧
    (42 : Int) ≠ -1 ∧
    ((0 : Int) ≤ 3 ∧ (0 : Int) ≤ 6 ∧ (0 : Int) ≤ 7) ∧
    ((3 : Int) ≠ -1 ∧ (6 : Int) ≠ -1 ∧ (7 : Int) ≠ -1) :=
  have hok : ∀ op ∈ [Op.addArg "-n", Op.start (exStartEnv 42 true)], op.pipesOk := by
    intro op hop
    simp only [List.mem_cons, List.mem_singleton, List.not_mem_nil, or_false] at hop
    rcases hop with h | h <;> subst h <;> simp [Op.pipesOk, exStartEnv]
  have hrun : (ctor "/bin/cat" [] []).run [Op.addArg "-n", Op.start (exStartEnv 42 true)] =
      some { err := 3, in_ := 6, out := 7, pid := 42, path := "/bin/cat",
             argv := ["/bin/cat", "-n"], envp := [] } := by
    simp [run, step, ctor, addArg, start, exStartEnv]
  ⟨hok, hrun, by decide,
    running_implies_streams_valid "/bin/cat" [] []
      [Op.addArg "-n", Op.start (exStartEnv 42 true)] _ hok hrun (by decide)⟩

end Process
